import Mathlib

/-!
Verification development for the identity-reconciliation service
(`src/main.py`).  The resolver state is the `contacts` table, modelled as a
list of `Contact` records in insertion (rowid) order; SQLAlchemy queries
become list filters that preserve that order, and the auto-assigned id of an
inserted row is one more than the largest id in the table.  Python
truthiness of an `Optional[str]` field (`None` and `""` are falsy) is
modelled by `present`.  Timestamps are natural numbers; `identifyCore`
takes the current time `now` as a parameter standing for
`datetime.datetime.utcnow()`.
-/

namespace IdentityRecon

/-- One row of the `contacts` table (class `Contact` in `src/main.py`).
The `deletedAt` column is never read or written by the endpoint and is
omitted. -/
structure Contact where
  id : Nat
  email : Option String
  phoneNumber : Option String
  linkedId : Option Nat
  linkPrecedence : String
  createdAt : Nat
  updatedAt : Nat
deriving Repr, DecidableEq

/-- The `ContactResponse` pydantic model. -/
structure ContactResponse where
  primaryContactId : Nat
  emails : List String
  phoneNumbers : List String
  secondaryContactIds : List Nat
deriving Repr, DecidableEq

/-- The `IdentifyRequest` pydantic model: both fields optional. -/
structure IdentifyRequest where
  email : Option String
  phoneNumber : Option String
deriving Repr, DecidableEq

/-- Failure modes of the endpoint: the explicit HTTP 400 raised when both
fields are missing, and the crash (HTTP 500) that occurs when
`find_primary_contact` returns `None` and the code dereferences it. -/
inductive IdError where
  | invalidRequest
  | internalError
deriving Repr, DecidableEq

/-- Outcome of one call: either a `ContactResponse` or an error. -/
inductive IdResult where
  | ok (contact : ContactResponse)
  | err (e : IdError)
deriving Repr, DecidableEq

/-- Full observable outcome of one `identify` call: the HTTP-level result,
the final table state, and the list of table states at each executed
`db.commit()` (lines 106, 134 and 161 of `src/main.py`), in order. -/
structure IdentifyOut where
  result : IdResult
  store : List Contact
  commits : List (List Contact)
deriving Repr, DecidableEq

/-- Python truthiness of an `Optional[str]`: `None` and `""` are falsy. -/
def present (o : Option String) : Bool :=
  o.getD "" ≠ ""

/-- The match query (lines 87-96): a record matches when a supplied (truthy)
email equals its email, or a supplied (truthy) phone equals its phone.  An
absent clause contributes nothing, exactly as in `or_(*conditions)`. -/
def matchesRequest (req : IdentifyRequest) (c : Contact) : Bool :=
  (present req.email && c.email == req.email) ||
  (present req.phoneNumber && c.phoneNumber == req.phoneNumber)

/-- The id SQLite assigns to the next inserted row: max existing id + 1
(1 on an empty table). -/
def nextId (s : List Contact) : Nat :=
  s.foldr (fun c m => max c.id m) 0 + 1

/-- `db.query(Contact).filter(Contact.id == i).first()`. -/
def findById (s : List Contact) (i : Nat) : Option Contact :=
  s.find? (fun c => c.id == i)

/-- `find_primary_contact` (lines 58-66): follow `linkedId` until a record
with `linkPrecedence == "primary"` is reached.  The Python version recurses
without bound; the fuel argument makes the recursion total, and callers pass
more fuel than any acyclic chain can consume, so running out of fuel models
the Python stack overflow on a cyclic chain (a crash, i.e. `none`). -/
def find_primary_contact (s : List Contact) : Option Nat → Nat → Option Contact
  | _, 0 => none
  | cid, fuel + 1 =>
    match cid with
    | none => none
    | some i =>
      match findById s i with
      | none => none
      | some c =>
        if c.linkPrecedence == "primary" then some c
        else find_primary_contact s c.linkedId fuel

/-- `get_all_linked_contacts` (lines 68-78): the record with the given id if
it exists and is primary, followed by every secondary whose `linkedId`
equals that id. -/
def get_all_linked_contacts (s : List Contact) (primary_id : Nat) : List Contact :=
  match findById s primary_id with
  | none => []
  | some pc =>
    if pc.linkPrecedence == "primary" then
      pc :: s.filter (fun c => c.linkedId == some primary_id && c.linkPrecedence == "secondary")
    else []

/-- Stable insertion into a list sorted by `createdAt` (ties keep the
existing element first), the building block of the stable
`primary_contacts.sort(key=lambda x: x.createdAt)` at line 124. -/
def insertByCreated (c : Contact) : List Contact → List Contact
  | [] => [c]
  | x :: xs =>
    if c.createdAt ≤ x.createdAt then c :: x :: xs
    else x :: insertByCreated c xs

/-- Stable sort by `createdAt` ascending (line 124). -/
def sortByCreated : List Contact → List Contact
  | [] => []
  | x :: xs => insertByCreated x (sortByCreated xs)

/-- The in-place mutation of one demoted primary (lines 129-132), applied to
the row whose id is in `otherIds`. -/
def demoteFn (now : Nat) (oldestId : Nat) (otherIds : List Nat) (c : Contact) : Contact :=
  if otherIds.contains c.id then
    { c with linkPrecedence := "secondary", linkedId := some oldestId, updatedAt := now }
  else c

/-- Lines 122-134: when more than one matched record is primary, sort the
matched primaries by `createdAt`, keep the oldest, and demote the rest,
re-linking them to the oldest.  Returns the (possibly sorted) primary list
and the updated table. -/
def mergeStep (now : Nat) (s : List Contact) (primaries : List Contact) :
    List Contact × List Contact :=
  if primaries.length > 1 then
    match sortByCreated primaries with
    | [] => (primaries, s)
    | oldest :: others =>
      (oldest :: others, s.map (demoteFn now oldest.id (others.map (fun c => c.id))))
  else (primaries, s)

/-- `{c.email for c in l if c.email}` as a list (truthy emails, in order). -/
def truthyEmails (l : List Contact) : List String :=
  (l.filterMap (fun c => c.email)).filter (fun e => e != "")

/-- `{c.phoneNumber for c in l if c.phoneNumber}` as a list. -/
def truthyPhones (l : List Contact) : List String :=
  (l.filterMap (fun c => c.phoneNumber)).filter (fun p => p != "")

/-- The novelty check of lines 147-152: the supplied email is truthy and not
among the graph's emails, or the supplied phone is truthy and not among the
graph's phones. -/
def noveltyNeeded (req : IdentifyRequest) (g : List Contact) : Bool :=
  (present req.email && !((truthyEmails g).contains (req.email.getD ""))) ||
  (present req.phoneNumber && !((truthyPhones g).contains (req.phoneNumber.getD "")))

/-- Lines 165-177: build the response from the working primary and the
graph. The Python set comprehensions de-duplicate; `dedup` makes that
deterministic. -/
def buildResponse (pc : Contact) (g : List Contact) : ContactResponse :=
  { primaryContactId := pc.id
    emails := (truthyEmails g).dedup
    phoneNumbers := (truthyPhones g).dedup
    secondaryContactIds :=
      (g.filter (fun c => c.linkPrecedence == "secondary")).map (fun c => c.id) }

/-- Lines 144-177, given the working primary `pc` and the post-merge table
`s1`: compute the graph, run the novelty check, possibly insert one new
secondary (committing it), and build the response. -/
def afterPrimary (req : IdentifyRequest) (now : Nat) (s1 : List Contact)
    (commits1 : List (List Contact)) (pc : Contact) : IdentifyOut :=
  let g := get_all_linked_contacts s1 pc.id
  if noveltyNeeded req g then
    let nc : Contact :=
      ⟨nextId s1, req.email, req.phoneNumber, some pc.id, "secondary", now, now⟩
    ⟨.ok (buildResponse pc (g ++ [nc])), s1 ++ [nc], commits1 ++ [s1 ++ [nc]]⟩
  else
    ⟨.ok (buildResponse pc g), s1, commits1⟩

/-- The `identify` endpoint (lines 80-177).  `now` stands for
`datetime.datetime.utcnow()`. -/
def identifyCore (req : IdentifyRequest) (now : Nat) (s : List Contact) : IdentifyOut :=
  if !(present req.email) && !(present req.phoneNumber) then
    ⟨.err .invalidRequest, s, []⟩
  else
    match s.filter (matchesRequest req) with
    | [] =>
      let nc : Contact :=
        ⟨nextId s, req.email, req.phoneNumber, none, "primary", now, now⟩
      ⟨.ok { primaryContactId := nc.id
             emails := if present req.email then [req.email.getD ""] else []
             phoneNumbers := if present req.phoneNumber then [req.phoneNumber.getD ""] else []
             secondaryContactIds := [] },
       s ++ [nc], [s ++ [nc]]⟩
    | m0 :: rest =>
      let primary_contacts := (m0 :: rest).filter (fun c => c.linkPrecedence == "primary")
      let merged := mergeStep now s primary_contacts
      let commits1 : List (List Contact) :=
        if primary_contacts.length > 1 then [merged.2] else []
      match merged.1 with
      | p :: _ => afterPrimary req now merged.2 commits1 p
      | [] =>
        match find_primary_contact merged.2 m0.linkedId (merged.2.length + 1) with
        | none => ⟨.err .internalError, merged.2, commits1⟩
        | some pc => afterPrimary req now merged.2 commits1 pc

/-- Result and final store of one call, the externally visible behaviour. -/
def identify (req : IdentifyRequest) (now : Nat) (s : List Contact) :
    IdResult × List Contact :=
  ((identifyCore req now s).result, (identifyCore req now s).store)

/-- The working primary the call resolves (lines 136-142): the head of the
(sorted) matched-primary list if any match is primary, otherwise the result
of the `find_primary_contact` walk from the first match. -/
def workingPrimary (req : IdentifyRequest) (now : Nat) (s : List Contact) :
    Option Contact :=
  match s.filter (matchesRequest req) with
  | [] => none
  | m0 :: rest =>
    match mergeStep now s ((m0 :: rest).filter (fun c => c.linkPrecedence == "primary")) with
    | (p :: _, _) => some p
    | ([], s1) => find_primary_contact s1 m0.linkedId (s1.length + 1)

/-- The table state after the (possible) merge pass and before the novelty
check. -/
def mergedStore (req : IdentifyRequest) (now : Nat) (s : List Contact) :
    List Contact :=
  match s.filter (matchesRequest req) with
  | [] => s
  | m0 :: rest =>
    (mergeStep now s ((m0 :: rest).filter (fun c => c.linkPrecedence == "primary"))).2

/-- Well-formedness of one record relative to the table, following the data
model of the spec (section 3): a primary has no `linkedId`; a secondary has
a `linkedId` naming an existing primary record. -/
def wfContact (s : List Contact) (c : Contact) : Bool :=
  (c.linkPrecedence == "primary" && c.linkedId == none) ||
  (c.linkPrecedence == "secondary" &&
    match c.linkedId with
    | none => false
    | some j =>
      match findById s j with
      | none => false
      | some p => p.linkPrecedence == "primary")

/-- Well-formed table: store-assigned ids are distinct and every record
satisfies the data-model invariants. -/
def WF (s : List Contact) : Prop :=
  (s.map (fun c => c.id)).Nodup ∧ ∀ c ∈ s, wfContact s c = true

instance (s : List Contact) : Decidable (WF s) := by
  unfold WF
  infer_instance

/-- The two-level linkage invariant of the spec: no record's `linkedId`
points to a record that itself has a non-null `linkedId`. -/
def twoLevel (s : List Contact) : Bool :=
  s.all fun c =>
    match c.linkedId with
    | none => true
    | some j =>
      match findById s j with
      | none => true
      | some d => d.linkedId == none

/-! ### Basic lemmas about the store model -/

theorem id_le_foldrMax {c : Contact} {s : List Contact} (h : c ∈ s) :
    c.id ≤ s.foldr (fun c m => max c.id m) 0 := by
  induction s with
  | nil => cases h
  | cons a t ih =>
    rcases List.mem_cons.mp h with h | h
    · subst h; exact Nat.le_max_left _ _
    · exact le_trans (ih h) (Nat.le_max_right _ _)

theorem id_lt_nextId {c : Contact} {s : List Contact} (h : c ∈ s) :
    c.id < nextId s :=
  Nat.lt_succ_of_le (id_le_foldrMax h)

theorem findById_mem {s : List Contact} {i : Nat} {c : Contact}
    (h : findById s i = some c) : c ∈ s ∧ c.id = i := by
  refine ⟨List.mem_of_find?_eq_some h, ?_⟩
  have := List.find?_some h
  exact eq_of_beq this

theorem findById_append {s t : List Contact} {i : Nat} {c : Contact}
    (h : findById s i = some c) : findById (s ++ t) i = some c := by
  induction s with
  | nil => simp [findById] at h
  | cons a s ih =>
    cases ha : (a.id == i) with
    | true =>
      simp only [findById, List.cons_append, List.find?_cons, ha] at h ⊢
      exact h
    | false =>
      simp only [findById, List.cons_append, List.find?_cons, ha] at h ⊢
      exact ih h

theorem findById_of_nodup {s : List Contact} {c : Contact}
    (hnd : (s.map (fun c => c.id)).Nodup) (hc : c ∈ s) :
    findById s c.id = some c := by
  induction s with
  | nil => cases hc
  | cons a t ih =>
    simp only [List.map_cons, List.nodup_cons] at hnd
    rcases List.mem_cons.mp hc with h | h
    · subst h
      simp [findById, List.find?_cons]
    · have hne : (a.id == c.id) = false := by
        refine beq_eq_false_iff_ne.mpr (fun he => hnd.1 ?_)
        exact he ▸ List.mem_map_of_mem (fun c => c.id) h
      simp only [findById, List.find?_cons, hne]
      exact ih hnd.2 h

theorem findById_fresh (s : List Contact) : findById s (nextId s) = none := by
  cases h : findById s (nextId s) with
  | none => rfl
  | some c =>
    obtain ⟨hm, hid⟩ := findById_mem h
    exact absurd hid (Nat.ne_of_lt (id_lt_nextId hm))

theorem filter_map_comm (f : Contact → Contact) (p q : Contact → Bool)
    (l : List Contact) (h : ∀ c ∈ l, p (f c) = q c) :
    (l.map f).filter p = (l.filter q).map f := by
  induction l with
  | nil => rfl
  | cons a t ih =>
    have ha := h a (List.mem_cons_self a t)
    have iht := ih (fun c hc => h c (List.mem_cons_of_mem a hc))
    simp only [List.map_cons, List.filter_cons, ha]
    cases hq : q a
    · simp [iht]
    · simp [iht]

theorem filter_id_eq_singleton {s : List Contact} {b : Contact}
    (hnd : (s.map (fun c => c.id)).Nodup) (hb : b ∈ s) :
    s.filter (fun c => c.id == b.id) = [b] := by
  induction s with
  | nil => cases hb
  | cons a t ih =>
    simp only [List.map_cons, List.nodup_cons] at hnd
    rcases List.mem_cons.mp hb with h | h
    · subst h
      have ht : t.filter (fun c => c.id == b.id) = [] := by
        rw [List.filter_eq_nil_iff]
        intro c hc hcid
        exact hnd.1 ((eq_of_beq hcid) ▸ List.mem_map_of_mem (fun c => c.id) hc)
      simp [List.filter_cons, ht]
    · have hne : (a.id == b.id) = false := by
        refine beq_eq_false_iff_ne.mpr (fun he => hnd.1 ?_)
        exact he ▸ List.mem_map_of_mem (fun c => c.id) h
      simp [List.filter_cons, hne, ih hnd.2 h]

theorem nodup_ids_filter (p : Contact → Bool) {s : List Contact}
    (h : (s.map (fun c => c.id)).Nodup) :
    ((s.filter p).map (fun c => c.id)).Nodup :=
  h.sublist ((List.filter_sublist s).map (fun c => c.id))

theorem eq_of_mem_ids {s : List Contact} {a b : Contact}
    (hnd : (s.map (fun c => c.id)).Nodup) (ha : a ∈ s) (hb : b ∈ s)
    (hid : a.id = b.id) : a = b :=
  List.inj_on_of_nodup_map hnd ha hb hid

theorem insertByCreated_perm (c : Contact) (l : List Contact) :
    (insertByCreated c l).Perm (c :: l) := by
  induction l with
  | nil => exact List.Perm.refl _
  | cons x xs ih =>
    unfold insertByCreated
    split
    · exact List.Perm.refl _
    · exact (ih.cons x).trans (List.Perm.swap c x xs)

theorem sortByCreated_perm (l : List Contact) : (sortByCreated l).Perm l := by
  induction l with
  | nil => exact List.Perm.refl _
  | cons x xs ih =>
    exact (insertByCreated_perm x (sortByCreated xs)).trans (ih.cons x)

theorem truthyEmails_append (l1 l2 : List Contact) :
    truthyEmails (l1 ++ l2) = truthyEmails l1 ++ truthyEmails l2 := by
  simp [truthyEmails, List.filterMap_append, List.filter_append]

theorem truthyPhones_append (l1 l2 : List Contact) :
    truthyPhones (l1 ++ l2) = truthyPhones l1 ++ truthyPhones l2 := by
  simp [truthyPhones, List.filterMap_append, List.filter_append]

theorem mem_truthyEmails {l : List Contact} {c : Contact} {e : String}
    (hc : c ∈ l) (he : c.email = some e) (hne : e ≠ "") : e ∈ truthyEmails l := by
  unfold truthyEmails
  refine List.mem_filter.mpr ⟨List.mem_filterMap.mpr ⟨c, hc, he⟩, by simp [hne]⟩

theorem mem_truthyPhones {l : List Contact} {c : Contact} {p : String}
    (hc : c ∈ l) (hp : c.phoneNumber = some p) (hne : p ≠ "") :
    p ∈ truthyPhones l := by
  unfold truthyPhones
  refine List.mem_filter.mpr ⟨List.mem_filterMap.mpr ⟨c, hc, hp⟩, by simp [hne]⟩

/-! ### Lemmas about the demotion map -/

theorem demoteFn_id (now oldestId : Nat) (ids : List Nat) (c : Contact) :
    (demoteFn now oldestId ids c).id = c.id := by
  unfold demoteFn; split <;> rfl

theorem demoteFn_fields (now oldestId : Nat) (ids : List Nat) (c : Contact) :
    (demoteFn now oldestId ids c).email = c.email ∧
    (demoteFn now oldestId ids c).phoneNumber = c.phoneNumber ∧
    (demoteFn now oldestId ids c).createdAt = c.createdAt := by
  unfold demoteFn; split <;> exact ⟨rfl, rfl, rfl⟩

theorem demoteFn_of_not_mem {ids : List Nat} {c : Contact} (now oldestId : Nat)
    (h : ids.contains c.id = false) : demoteFn now oldestId ids c = c := by
  unfold demoteFn; rw [h]; rfl

theorem demoteFn_of_mem {ids : List Nat} {c : Contact} (now oldestId : Nat)
    (h : ids.contains c.id = true) :
    demoteFn now oldestId ids c =
      { c with linkPrecedence := "secondary", linkedId := some oldestId, updatedAt := now } := by
  unfold demoteFn; rw [h]; simp

theorem matchesRequest_demoteFn (req : IdentifyRequest) (now oldestId : Nat)
    (ids : List Nat) (c : Contact) :
    matchesRequest req (demoteFn now oldestId ids c) = matchesRequest req c := by
  unfold matchesRequest demoteFn; split <;> rfl

theorem findById_map_demote (now oldestId : Nat) (ids : List Nat)
    (s : List Contact) (i : Nat) :
    findById (s.map (demoteFn now oldestId ids)) i =
      (findById s i).map (demoteFn now oldestId ids) := by
  induction s with
  | nil => rfl
  | cons a t ih =>
    have hda : ((demoteFn now oldestId ids a).id == i) = (a.id == i) := by
      rw [demoteFn_id]
    cases ha : (a.id == i) with
    | true =>
      simp only [findById, List.map_cons, List.find?_cons, hda, ha]
      rfl
    | false =>
      simp only [findById, List.map_cons, List.find?_cons, hda, ha]
      exact ih

theorem valid_of_matches {req : IdentifyRequest} {c : Contact}
    (h : matchesRequest req c = true) :
    (present req.email || present req.phoneNumber) = true := by
  unfold matchesRequest at h
  rcases Bool.or_eq_true_iff.mp h with h | h
  · exact Bool.or_eq_true_iff.mpr (Or.inl (Bool.and_eq_true_iff.mp h).1)
  · exact Bool.or_eq_true_iff.mpr (Or.inr (Bool.and_eq_true_iff.mp h).1)

theorem matchesRequest_new (req : IdentifyRequest)
    (hv : (present req.email || present req.phoneNumber) = true)
    (i : Nat) (lid : Option Nat) (prec : String) (ca ua : Nat) :
    matchesRequest req ⟨i, req.email, req.phoneNumber, lid, prec, ca, ua⟩ = true := by
  unfold matchesRequest
  simp only [beq_self_eq_true, Bool.and_true]
  exact hv

/-! ### Unfolding lemmas for the branches of `identifyCore` -/

theorem valid_of_matching {req : IdentifyRequest} {s : List Contact}
    {m0 : Contact} {rest : List Contact}
    (hm : s.filter (matchesRequest req) = m0 :: rest) :
    (present req.email || present req.phoneNumber) = true := by
  have hmem : m0 ∈ s.filter (matchesRequest req) := by
    rw [hm]; exact List.mem_cons_self m0 rest
  exact valid_of_matches (List.of_mem_filter hmem)

theorem guard_false_of_valid {req : IdentifyRequest}
    (hv : (present req.email || present req.phoneNumber) = true) :
    (!(present req.email) && !(present req.phoneNumber)) = false := by
  rcases Bool.or_eq_true_iff.mp hv with h | h <;> simp [h]

/-- Branch of `identifyCore` with no matching record (lines 98-116). -/
theorem identifyCore_noMatch {req : IdentifyRequest} {s : List Contact} (now : Nat)
    (hv : (present req.email || present req.phoneNumber) = true)
    (hm : s.filter (matchesRequest req) = []) :
    identifyCore req now s =
      ⟨.ok { primaryContactId := nextId s
             emails := if present req.email then [req.email.getD ""] else []
             phoneNumbers := if present req.phoneNumber then [req.phoneNumber.getD ""] else []
             secondaryContactIds := [] },
       s ++ [⟨nextId s, req.email, req.phoneNumber, none, "primary", now, now⟩],
       [s ++ [⟨nextId s, req.email, req.phoneNumber, none, "primary", now, now⟩]]⟩ := by
  unfold identifyCore
  rw [guard_false_of_valid hv, hm]
  simp

/-- Branch of `identifyCore` where matches exist and more than one of them
is primary: the demotion pass runs (lines 122-134) and the sorted head is
the working primary. -/
theorem identifyCore_merge {req : IdentifyRequest} {s : List Contact} (now : Nat)
    {m0 oldest : Contact} {rest others : List Contact}
    (hm : s.filter (matchesRequest req) = m0 :: rest)
    (hsort : sortByCreated ((m0 :: rest).filter (fun c => c.linkPrecedence == "primary")) =
      oldest :: others)
    (hlen : ((m0 :: rest).filter (fun c => c.linkPrecedence == "primary")).length > 1) :
    identifyCore req now s =
      afterPrimary req now
        (s.map (demoteFn now oldest.id (others.map (fun c => c.id))))
        [s.map (demoteFn now oldest.id (others.map (fun c => c.id)))] oldest := by
  unfold identifyCore
  rw [guard_false_of_valid (valid_of_matching hm), hm]
  simp only [mergeStep, hsort, if_pos hlen]
  simp [hlen]

/-- Branch of `identifyCore` where matches exist and exactly one of them is
primary: no mutation, that one is the working primary. -/
theorem identifyCore_onePrimary {req : IdentifyRequest} {s : List Contact} (now : Nat)
    {m0 p : Contact} {rest : List Contact}
    (hm : s.filter (matchesRequest req) = m0 :: rest)
    (hp : (m0 :: rest).filter (fun c => c.linkPrecedence == "primary") = [p]) :
    identifyCore req now s = afterPrimary req now s [] p := by
  unfold identifyCore
  rw [guard_false_of_valid (valid_of_matching hm), hm]
  simp only [hp, mergeStep]
  simp

/-- Branch of `identifyCore` where all matches are secondary: the working
primary is found by `find_primary_contact` on the first match (lines
140-142). -/
theorem identifyCore_noPrimary {req : IdentifyRequest} {s : List Contact} (now : Nat)
    {m0 : Contact} {rest : List Contact}
    (hm : s.filter (matchesRequest req) = m0 :: rest)
    (hp : (m0 :: rest).filter (fun c => c.linkPrecedence == "primary") = []) :
    identifyCore req now s =
      match find_primary_contact s m0.linkedId (s.length + 1) with
      | none => ⟨.err .internalError, s, []⟩
      | some pc => afterPrimary req now s [] pc := by
  unfold identifyCore
  rw [guard_false_of_valid (valid_of_matching hm), hm]
  simp only [hp, mergeStep]
  simp

/-! ### Claim theorems -/

/-- Claim C6: a request in which neither email nor phoneNumber is present
fails with `invalidRequest` and has no side effect: the call returns the
store exactly as it was and issues no commit, so no record is created or
mutated. -/
theorem claim_C6 (now : Nat) (s : List Contact) :
    identifyCore ⟨none, none⟩ now s = ⟨.err .invalidRequest, s, []⟩ := by
  simp [identifyCore, present]

/-- Claim C9: an empty-string field is treated as not supplied: a request
whose email and phoneNumber are both `""` fails with `invalidRequest`
exactly as if both were absent and leaves the store untouched, and an
empty-string field contributes no clause to the match query, so the matched
set is the same as with the field absent and records are never matched on
an empty-string value. -/
theorem claim_C9 (now : Nat) (s : List Contact) (e p : Option String) :
    identifyCore ⟨some "", some ""⟩ now s = ⟨.err .invalidRequest, s, []⟩ ∧
    identifyCore ⟨some "", some ""⟩ now s = identifyCore ⟨none, none⟩ now s ∧
    s.filter (matchesRequest ⟨some "", p⟩) = s.filter (matchesRequest ⟨none, p⟩) ∧
    s.filter (matchesRequest ⟨e, some ""⟩) = s.filter (matchesRequest ⟨e, none⟩) := by
  refine ⟨by simp [identifyCore, present], by simp [identifyCore, present], ?_, ?_⟩
  · exact List.filter_congr (fun c _ => by simp [matchesRequest, present])
  · exact List.filter_congr (fun c _ => by simp [matchesRequest, present])

/-- Claim C5: on a store where nothing matches the given (non-empty) email
or phone — in particular on an empty store — `identify` creates exactly one
new record, a primary with null `linkedId` carrying the given email and
phone, and returns it as a singleton identity. -/
theorem claim_C5 (now : Nat) (s : List Contact) (e p : String)
    (he : e ≠ "") (hp : p ≠ "")
    (hm : s.filter (matchesRequest ⟨some e, some p⟩) = []) :
    identifyCore ⟨some e, some p⟩ now s =
      ⟨.ok { primaryContactId := nextId s, emails := [e], phoneNumbers := [p]
             secondaryContactIds := [] },
       s ++ [⟨nextId s, some e, some p, none, "primary", now, now⟩],
       [s ++ [⟨nextId s, some e, some p, none, "primary", now, now⟩]]⟩ := by
  have hv : (present (some e) || present (some p)) = true := by
    simp [present, he]
  rw [identifyCore_noMatch now hv hm]
  simp [present, he, hp]

/-- Witness for C5: a concrete empty store. -/
theorem claim_C5_witness :
    identifyCore ⟨some "a@x", some "111"⟩ 3 [] =
      ⟨.ok { primaryContactId := 1, emails := ["a@x"], phoneNumbers := ["111"]
             secondaryContactIds := [] },
       [⟨1, some "a@x", some "111", none, "primary", 3, 3⟩],
       [[⟨1, some "a@x", some "111", none, "primary", 3, 3⟩]]⟩ :=
  claim_C5 3 [] "a@x" "111" (by decide) (by decide) (by rfl)

/-- Counterexample to claim C1.  The store holds primaries 1 and 2 and a
secondary 3 linked to 2 (a state reachable by three Identify calls).  The
request matches both primaries, so the call merges them, demoting record 2
and linking it to record 1 — but record 3, whose `linkedId` equals the
newly-demoted primary's id 2, is NOT re-pointed: after the call record 3
still points to record 2, whose own `linkedId` is now non-null, so the
two-level property fails. -/
theorem claim_C1_counterexample :
    twoLevel (identifyCore ⟨some "a@x", some "222"⟩ 5
      [⟨1, some "a@x", some "111", none, "primary", 0, 0⟩,
       ⟨2, some "b@x", some "222", none, "primary", 1, 1⟩,
       ⟨3, some "c@x", some "222", some 2, "secondary", 2, 2⟩]).store = false ∧
    (identifyCore ⟨some "a@x", some "222"⟩ 5
      [⟨1, some "a@x", some "111", none, "primary", 0, 0⟩,
       ⟨2, some "b@x", some "222", none, "primary", 1, 1⟩,
       ⟨3, some "c@x", some "222", some 2, "secondary", 2, 2⟩]).store =
      [⟨1, some "a@x", some "111", none, "primary", 0, 0⟩,
       ⟨2, some "b@x", some "222", some 1, "secondary", 1, 5⟩,
       ⟨3, some "c@x", some "222", some 2, "secondary", 2, 2⟩] := by
  decide

/-- Claim C1 as amended: after a merge, every newly-demoted primary is
re-linked directly to the surviving primary and at most one new secondary
(itself linked to the surviving primary) is appended, but no other record
is touched: a record whose `linkedId` equals a newly-demoted primary's id
keeps that `linkedId` (no re-pointing occurs), so such a record remains two
hops from the surviving primary. -/
theorem claim_C1_amended (req : IdentifyRequest) (now : Nat) (s : List Contact)
    (m0 oldest : Contact) (rest others : List Contact)
    (hm : s.filter (matchesRequest req) = m0 :: rest)
    (hsort : sortByCreated ((m0 :: rest).filter (fun c => c.linkPrecedence == "primary")) =
      oldest :: others)
    (hlen : ((m0 :: rest).filter (fun c => c.linkPrecedence == "primary")).length > 1) :
    ∃ t, (identifyCore req now s).store =
        s.map (demoteFn now oldest.id (others.map (fun c => c.id))) ++ t ∧
      (t = [] ∨ ∃ nc : Contact, t = [nc] ∧ nc.linkPrecedence = "secondary" ∧
        nc.linkedId = some oldest.id) := by
  rw [identifyCore_merge now hm hsort hlen]
  unfold afterPrimary
  set s1 := s.map (demoteFn now oldest.id (others.map (fun c => c.id))) with hs1
  cases hn : noveltyNeeded req (get_all_linked_contacts s1 oldest.id)
  · exact ⟨[], by simp [hn], Or.inl rfl⟩
  · exact ⟨[⟨nextId s1, req.email, req.phoneNumber, some oldest.id, "secondary", now, now⟩],
      by simp [hn], Or.inr ⟨_, rfl, rfl, rfl⟩⟩

/-- Witness for the amended C1, on the counterexample's store: the merge
demotes record 2 onto record 1 and appends nothing, leaving record 3
pointing at the demoted record 2. -/
theorem claim_C1_amended_witness :
    ∃ t, (identifyCore ⟨some "a@x", some "222"⟩ 5
      [⟨1, some "a@x", some "111", none, "primary", 0, 0⟩,
       ⟨2, some "b@x", some "222", none, "primary", 1, 1⟩,
       ⟨3, some "c@x", some "222", some 2, "secondary", 2, 2⟩]).store =
        [⟨1, some "a@x", some "111", none, "primary", 0, 0⟩,
         ⟨2, some "b@x", some "222", none, "primary", 1, 1⟩,
         ⟨3, some "c@x", some "222", some 2, "secondary", 2, 2⟩].map
          (demoteFn 5 1 [2]) ++ t ∧
      (t = [] ∨ ∃ nc : Contact, t = [nc] ∧ nc.linkPrecedence = "secondary" ∧
        nc.linkedId = some 1) :=
  claim_C1_amended ⟨some "a@x", some "222"⟩ 5
    [⟨1, some "a@x", some "111", none, "primary", 0, 0⟩,
     ⟨2, some "b@x", some "222", none, "primary", 1, 1⟩,
     ⟨3, some "c@x", some "222", some 2, "secondary", 2, 2⟩]
    ⟨1, some "a@x", some "111", none, "primary", 0, 0⟩
    ⟨1, some "a@x", some "111", none, "primary", 0, 0⟩
    [⟨2, some "b@x", some "222", none, "primary", 1, 1⟩,
     ⟨3, some "c@x", some "222", some 2, "secondary", 2, 2⟩]
    [⟨2, some "b@x", some "222", none, "primary", 1, 1⟩]
    (by decide) (by decide) (by decide)

/-- Claim C7 evaluated at a failing input.  The call merges two primaries
and then creates a new secondary, and the code commits these as two
separate transactions (`db.commit()` at line 134 and at line 161): the
first committed state already contains the demotion of record 2 but not
the secondary the same call goes on to create, so an intermediate state is
observable between the two commits, contradicting the single-atomic-
transaction claim. -/
theorem claim_C7_code_evaluation :
    (identifyCore ⟨some "c@x", some "111"⟩ 5
      [⟨1, some "a@x", some "111", none, "primary", 0, 0⟩,
       ⟨2, some "b@x", some "111", none, "primary", 1, 1⟩]).commits =
      [[⟨1, some "a@x", some "111", none, "primary", 0, 0⟩,
        ⟨2, some "b@x", some "111", some 1, "secondary", 1, 5⟩],
       [⟨1, some "a@x", some "111", none, "primary", 0, 0⟩,
        ⟨2, some "b@x", some "111", some 1, "secondary", 1, 5⟩,
        ⟨3, some "c@x", some "111", some 1, "secondary", 5, 5⟩]] ∧
    ([⟨1, some "a@x", some "111", none, "primary", 0, 0⟩,
      ⟨2, some "b@x", some "111", some 1, "secondary", 1, 5⟩] : List Contact) ≠
      (identifyCore ⟨some "c@x", some "111"⟩ 5
        [⟨1, some "a@x", some "111", none, "primary", 0, 0⟩,
         ⟨2, some "b@x", some "111", none, "primary", 1, 1⟩]).store ∧
    ([⟨1, some "a@x", some "111", none, "primary", 0, 0⟩,
      ⟨2, some "b@x", some "111", some 1, "secondary", 1, 5⟩] : List Contact) ≠
      [⟨1, some "a@x", some "111", none, "primary", 0, 0⟩,
       ⟨2, some "b@x", some "111", none, "primary", 1, 1⟩] := by
  decide

/-- A record returned by `find_primary_contact` is always primary. -/
theorem find_primary_contact_primary {s : List Contact} {c : Contact} :
    ∀ (fuel : Nat) (cid : Option Nat),
      find_primary_contact s cid fuel = some c → c.linkPrecedence = "primary" := by
  intro fuel
  induction fuel with
  | zero => intro cid h; simp [find_primary_contact] at h
  | succ n ih =>
    intro cid h
    unfold find_primary_contact at h
    split at h
    · simp at h
    · split at h
      · simp at h
      · split at h
        · rename_i hp
          cases h
          exact eq_of_beq hp
        · exact ih _ h

/-- Claim C8: when all matched records are secondary, `identify` resolves
the working primary by following `linkedId` links with
`find_primary_contact` to the ultimate record with
`linkPrecedence = "primary"` — however many hops the chain takes — and
returns that record's id as `primaryContactId`. -/
theorem claim_C8 (req : IdentifyRequest) (now : Nat) (s : List Contact)
    (m0 P : Contact) (rest : List Contact)
    (hm : s.filter (matchesRequest req) = m0 :: rest)
    (hsec : (m0 :: rest).filter (fun c => c.linkPrecedence == "primary") = [])
    (hfind : find_primary_contact s m0.linkedId (s.length + 1) = some P) :
    ∃ r, (identifyCore req now s).result = .ok r ∧
      r.primaryContactId = P.id ∧ P.linkPrecedence = "primary" := by
  rw [identifyCore_noPrimary now hm hsec]
  rw [hfind]
  unfold afterPrimary
  have hP := find_primary_contact_primary (s.length + 1) m0.linkedId hfind
  cases hn : noveltyNeeded req (get_all_linked_contacts s P.id)
  · exact ⟨buildResponse P (get_all_linked_contacts s P.id), by simp [hn], rfl, hP⟩
  · exact ⟨buildResponse P (get_all_linked_contacts s P.id ++
      [⟨nextId s, req.email, req.phoneNumber, some P.id, "secondary", now, now⟩]),
      by simp [hn], rfl, hP⟩

/-- Witness for C8 on a store with a two-hop chain: the only match is
record 3, a secondary pointing to secondary 2, which points to primary 1;
the resolver walks both hops and answers primaryContactId 1. -/
theorem claim_C8_witness :
    ∃ r, (identifyCore ⟨some "c", none⟩ 9
        [⟨1, some "a", none, none, "primary", 0, 0⟩,
         ⟨2, some "b", none, some 1, "secondary", 1, 1⟩,
         ⟨3, some "c", none, some 2, "secondary", 2, 2⟩]).result = .ok r ∧
      r.primaryContactId = 1 ∧
      Contact.linkPrecedence ⟨1, some "a", none, none, "primary", 0, 0⟩ = "primary" :=
  claim_C8 ⟨some "c", none⟩ 9
    [⟨1, some "a", none, none, "primary", 0, 0⟩,
     ⟨2, some "b", none, some 1, "secondary", 1, 1⟩,
     ⟨3, some "c", none, some 2, "secondary", 2, 2⟩]
    ⟨3, some "c", none, some 2, "secondary", 2, 2⟩
    ⟨1, some "a", none, none, "primary", 0, 0⟩ []
    (by decide) (by decide) (by decide)

theorem map_congr_mem {f g : Contact → Contact} {l : List Contact}
    (h : ∀ c ∈ l, f c = g c) : l.map f = l.map g := by
  induction l with
  | nil => rfl
  | cons a t ih =>
    simp only [List.map_cons]
    rw [h a (List.mem_cons_self a t), ih (fun c hc => h c (List.mem_cons_of_mem a hc))]

theorem dedup_toFinset_eq (l : List String) : l.dedup.toFinset = l.toFinset := by
  ext a
  simp [List.mem_dedup]

/-- `afterPrimary` written out as a single conditional, for rewriting. -/
theorem afterPrimary_eq (req : IdentifyRequest) (now : Nat) (s1 : List Contact)
    (cm : List (List Contact)) (pc : Contact) :
    afterPrimary req now s1 cm pc =
      if noveltyNeeded req (get_all_linked_contacts s1 pc.id) then
        ⟨.ok (buildResponse pc (get_all_linked_contacts s1 pc.id ++
            [⟨nextId s1, req.email, req.phoneNumber, some pc.id, "secondary", now, now⟩])),
         s1 ++ [⟨nextId s1, req.email, req.phoneNumber, some pc.id, "secondary", now, now⟩],
         cm ++ [s1 ++ [⟨nextId s1, req.email, req.phoneNumber, some pc.id, "secondary", now, now⟩]]⟩
      else ⟨.ok (buildResponse pc (get_all_linked_contacts s1 pc.id)), s1, cm⟩ := rfl

/-- Claim C2: with two independent primaries A (older) and B matched by the
cross-request (eA, pB), the resolver sorts the matched primaries by
`createdAt`, keeps A, demotes B to secondary with `linkedId = A.id` and a
refreshed `updatedAt`, leaves every other record untouched, and answers
primaryId = A.id, secondaryIds containing B.id, emails {eA, eB} and
phoneNumbers {pA, pB}. -/
theorem claim_C2 (now : Nat) (s : List Contact) (A B : Contact)
    (eA pA eB pB : String)
    (hnd : (s.map (fun c => c.id)).Nodup)
    (hAe : A.email = some eA) (hAp : A.phoneNumber = some pA)
    (hBe : B.email = some eB) (hBp : B.phoneNumber = some pB)
    (heA : eA ≠ "") (hpA : pA ≠ "") (heB : eB ≠ "") (hpB : pB ≠ "")
    (hAprim : A.linkPrecedence = "primary") (hBprim : B.linkPrecedence = "primary")
    (hlt : A.createdAt < B.createdAt)
    (hm : s.filter (matchesRequest ⟨some eA, some pB⟩) = [A, B])
    (hnosec : ∀ c ∈ s, c.linkedId ≠ some A.id) :
    ∃ r, (identifyCore ⟨some eA, some pB⟩ now s).result = .ok r ∧
      r.primaryContactId = A.id ∧
      B.id ∈ r.secondaryContactIds ∧
      r.emails.toFinset = {eA, eB} ∧
      r.phoneNumbers.toFinset = {pA, pB} ∧
      (identifyCore ⟨some eA, some pB⟩ now s).store =
        s.map (fun c => if c.id = B.id then
          { c with linkPrecedence := "secondary", linkedId := some A.id, updatedAt := now }
        else c) := by
  have hAs : A ∈ s := List.mem_of_mem_filter (by rw [hm]; exact List.mem_cons_self _ _)
  have hBs : B ∈ s := List.mem_of_mem_filter (by rw [hm]; simp)
  have hABne : A ≠ B := by
    intro h; rw [h] at hlt; exact lt_irrefl _ hlt
  have hidne : A.id ≠ B.id := fun h => hABne (eq_of_mem_ids hnd hAs hBs h)
  have hpcs : ([A, B] : List Contact).filter (fun c => c.linkPrecedence == "primary") =
      [A, B] := by
    simp [List.filter_cons, hAprim, hBprim]
  have hsort : sortByCreated (([A, B] : List Contact).filter
      (fun c => c.linkPrecedence == "primary")) = A :: [B] := by
    rw [hpcs]
    simp [sortByCreated, insertByCreated, le_of_lt hlt]
  have hlen : ((([A, B] : List Contact)).filter
      (fun c => c.linkPrecedence == "primary")).length > 1 := by
    rw [hpcs]; exact Nat.one_lt_two
  have hcontA : ([B.id] : List Nat).contains A.id = false := by
    simp [hidne]
  have hcontB : ([B.id] : List Nat).contains B.id = true := by
    simp
  have hdA : demoteFn now A.id [B.id] A = A :=
    demoteFn_of_not_mem now A.id hcontA
  have hdB : demoteFn now A.id [B.id] B =
      { B with linkPrecedence := "secondary", linkedId := some A.id, updatedAt := now } :=
    demoteFn_of_mem now A.id hcontB
  have hfind1 : findById (s.map (demoteFn now A.id [B.id])) A.id = some A := by
    rw [findById_map_demote, findById_of_nodup hnd hAs]
    simp [hdA]
  have hq : ∀ c ∈ s,
      ((demoteFn now A.id [B.id] c).linkedId == some A.id &&
        (demoteFn now A.id [B.id] c).linkPrecedence == "secondary") = (c.id == B.id) := by
    intro c hc
    by_cases h : c.id = B.id
    · have hcB : c = B := eq_of_mem_ids hnd hc hBs h
      subst hcB
      rw [hdB]
      simp
    · have hcont : ([B.id] : List Nat).contains c.id = false := by
        simp [h]
      rw [demoteFn_of_not_mem now A.id hcont]
      have h1 : (c.linkedId == some A.id) = false := beq_eq_false_iff_ne.mpr (hnosec c hc)
      have h2 : (c.id == B.id) = false := beq_eq_false_iff_ne.mpr h
      rw [h1, h2, Bool.false_and]
  have hfilter : (s.map (demoteFn now A.id [B.id])).filter
        (fun c => c.linkedId == some A.id && c.linkPrecedence == "secondary") =
      [{ B with linkPrecedence := "secondary", linkedId := some A.id, updatedAt := now }] := by
    rw [filter_map_comm (demoteFn now A.id [B.id])
        (fun c => c.linkedId == some A.id && c.linkPrecedence == "secondary")
        (fun c => c.id == B.id) s hq,
      filter_id_eq_singleton hnd hBs, List.map_cons, List.map_nil, hdB]
  have hg : get_all_linked_contacts (s.map (demoteFn now A.id [B.id])) A.id =
      [A, { B with linkPrecedence := "secondary", linkedId := some A.id, updatedAt := now }] := by
    unfold get_all_linked_contacts
    rw [hfind1]
    simp [hAprim, hfilter]
  have hnov : noveltyNeeded ⟨some eA, some pB⟩
      [A, { B with linkPrecedence := "secondary", linkedId := some A.id, updatedAt := now }] =
      false := by
    simp [noveltyNeeded, truthyEmails, truthyPhones, present, hAe, hBe, hAp, hBp,
      heA, heB, hpA, hpB]
  rw [identifyCore_merge now hm hsort hlen]
  simp only [List.map_cons, List.map_nil]
  rw [afterPrimary_eq, hg, hnov]
  simp only [Bool.false_eq_true, if_false]
  refine ⟨_, rfl, rfl, ?_, ?_, ?_, ?_⟩
  · simp [buildResponse, List.filter_cons, hAprim]
  · simp [buildResponse, truthyEmails, hAe, hBe, heA, heB, dedup_toFinset_eq]
  · simp [buildResponse, truthyPhones, hAp, hBp, hpA, hpB, dedup_toFinset_eq]
  · refine map_congr_mem (fun c hc => ?_)
    by_cases h : c.id = B.id
    · have hcB : c = B := eq_of_mem_ids hnd hc hBs h
      subst hcB
      rw [hdB, if_pos rfl]
    · have hcont : ([B.id] : List Nat).contains c.id = false := by
        simp [h]
      rw [demoteFn_of_not_mem now A.id hcont, if_neg h]

/-- Witness for C2: two concrete independent primaries, cross-request. -/
theorem claim_C2_witness :
    ∃ r, (identifyCore ⟨some "a@x", some "222"⟩ 5
        [⟨1, some "a@x", some "111", none, "primary", 0, 0⟩,
         ⟨2, some "b@x", some "222", none, "primary", 1, 1⟩]).result = .ok r ∧
      r.primaryContactId = 1 ∧
      2 ∈ r.secondaryContactIds ∧
      r.emails.toFinset = {"a@x", "b@x"} ∧
      r.phoneNumbers.toFinset = {"111", "222"} ∧
      (identifyCore ⟨some "a@x", some "222"⟩ 5
        [⟨1, some "a@x", some "111", none, "primary", 0, 0⟩,
         ⟨2, some "b@x", some "222", none, "primary", 1, 1⟩]).store =
        ([⟨1, some "a@x", some "111", none, "primary", 0, 0⟩,
          ⟨2, some "b@x", some "222", none, "primary", 1, 1⟩] : List Contact).map
          (fun c => if c.id = 2 then
            { c with linkPrecedence := "secondary", linkedId := some 1, updatedAt := 5 }
          else c) :=
  claim_C2 5
    [⟨1, some "a@x", some "111", none, "primary", 0, 0⟩,
     ⟨2, some "b@x", some "222", none, "primary", 1, 1⟩]
    ⟨1, some "a@x", some "111", none, "primary", 0, 0⟩
    ⟨2, some "b@x", some "222", none, "primary", 1, 1⟩
    "a@x" "111" "b@x" "222"
    (by decide) rfl rfl rfl rfl
    (by decide) (by decide) (by decide) (by decide)
    rfl rfl (by decide) (by decide) (by decide)

/-- Membership in the identity graph returned by `get_all_linked_contacts`:
either the looked-up primary itself, or a secondary of `s` linked to it. -/
theorem mem_get_all {s : List Contact} {pid : Nat} {d : Contact}
    (hd : d ∈ get_all_linked_contacts s pid) :
    (findById s pid = some d ∧ d.linkPrecedence = "primary") ∨
    (d ∈ s ∧ d.linkedId = some pid ∧ d.linkPrecedence = "secondary") := by
  unfold get_all_linked_contacts at hd
  split at hd
  · exact absurd hd (List.not_mem_nil d)
  · rename_i pc' hf
    split at hd
    · rename_i hp
      rcases List.mem_cons.mp hd with h | h
      · subst h; exact Or.inl ⟨hf, eq_of_beq hp⟩
      · have hmf := List.mem_filter.mp h
        have hb := Bool.and_eq_true_iff.mp hmf.2
        exact Or.inr ⟨hmf.1, eq_of_beq hb.1, eq_of_beq hb.2⟩
    · exact absurd hd (List.not_mem_nil d)

/-- A record of `s` not linked to `pid` never contributes its id to the
secondary ids computed from the graph of `pid`. -/
theorem cid_not_in_graph_ids {s : List Contact} {pid : Nat} {c : Contact}
    (hnd : (s.map (fun x => x.id)).Nodup) (hcs : c ∈ s)
    (hlink : c.linkedId ≠ some pid) :
    ∀ d ∈ (get_all_linked_contacts s pid).filter
        (fun x => x.linkPrecedence == "secondary"), d.id ≠ c.id := by
  intro d hd hde
  have hd' := List.mem_filter.mp hd
  rcases mem_get_all hd'.1 with ⟨_, hp⟩ | ⟨hds, hdl, _⟩
  · have hsec : d.linkPrecedence = "secondary" := eq_of_beq hd'.2
    rw [hp] at hsec
    exact absurd hsec (by decide)
  · have : d = c := eq_of_mem_ids hnd hds hcs hde
    rw [this] at hdl
    exact hlink hdl

/-- Claim C10: with at most one primary among the matches no existing
record is mutated (the store is unchanged or gets exactly one appended
record), and when all matches are secondary the whole outcome is
`afterPrimary` on the first match's resolved primary — so the response is
built solely from that primary's graph, and a matched secondary linked to a
different primary contributes no id to `secondaryContactIds`. -/
theorem claim_C10 (req : IdentifyRequest) (now : Nat) (s : List Contact)
    (m0 : Contact) (rest : List Contact)
    (hm : s.filter (matchesRequest req) = m0 :: rest)
    (hnd : (s.map (fun c => c.id)).Nodup) :
    (((m0 :: rest).filter (fun c => c.linkPrecedence == "primary")).length ≤ 1 →
      (identifyCore req now s).store = s ∨
        ∃ nc, (identifyCore req now s).store = s ++ [nc]) ∧
    (∀ P, (m0 :: rest).filter (fun c => c.linkPrecedence == "primary") = [] →
      find_primary_contact s m0.linkedId (s.length + 1) = some P →
      identifyCore req now s = afterPrimary req now s [] P ∧
      ∀ c ∈ m0 :: rest, c.linkedId ≠ some P.id →
        ∀ r, (identifyCore req now s).result = .ok r →
          c.id ∉ r.secondaryContactIds) := by
  constructor
  · intro hle
    cases hp : (m0 :: rest).filter (fun c => c.linkPrecedence == "primary") with
    | nil =>
      cases hf : find_primary_contact s m0.linkedId (s.length + 1) with
      | none =>
        refine Or.inl ?_
        rw [identifyCore_noPrimary now hm hp, hf]
      | some pc =>
        have heq : identifyCore req now s = afterPrimary req now s [] pc := by
          rw [identifyCore_noPrimary now hm hp, hf]
        rw [heq, afterPrimary_eq]
        cases hn : noveltyNeeded req (get_all_linked_contacts s pc.id)
        · simp [hn]
        · exact Or.inr ⟨⟨nextId s, req.email, req.phoneNumber, some pc.id,
            "secondary", now, now⟩, by simp [hn]⟩
    | cons p ps =>
      cases ps with
      | nil =>
        rw [identifyCore_onePrimary now hm hp, afterPrimary_eq]
        cases hn : noveltyNeeded req (get_all_linked_contacts s p.id)
        · simp [hn]
        · exact Or.inr ⟨⟨nextId s, req.email, req.phoneNumber, some p.id,
            "secondary", now, now⟩, by simp [hn]⟩
      | cons q qs =>
        rw [hp] at hle
        simp at hle
  · intro P hp hf
    have heq : identifyCore req now s = afterPrimary req now s [] P := by
      rw [identifyCore_noPrimary now hm hp, hf]
    refine ⟨heq, ?_⟩
    intro c hc hclink r hr hmem
    have hcs : c ∈ s := List.mem_of_mem_filter (hm ▸ hc)
    rw [heq, afterPrimary_eq] at hr
    cases hn : noveltyNeeded req (get_all_linked_contacts s P.id) with
    | false =>
      rw [if_neg (by simp [hn])] at hr
      have hrr : buildResponse P (get_all_linked_contacts s P.id) = r := by
        cases hr; rfl
      rw [← hrr] at hmem
      unfold buildResponse at hmem
      simp only at hmem
      obtain ⟨d, hd, hde⟩ := List.mem_map.mp hmem
      exact cid_not_in_graph_ids hnd hcs hclink d hd hde
    | true =>
      rw [if_pos (by simp [hn])] at hr
      have hrr : buildResponse P (get_all_linked_contacts s P.id ++
          [⟨nextId s, req.email, req.phoneNumber, some P.id, "secondary", now, now⟩]) = r := by
        cases hr; rfl
      rw [← hrr] at hmem
      unfold buildResponse at hmem
      simp only at hmem
      obtain ⟨d, hd, hde⟩ := List.mem_map.mp hmem
      rw [List.filter_append] at hd
      rcases List.mem_append.mp hd with hd | hd
      · exact cid_not_in_graph_ids hnd hcs hclink d hd hde
      · have hdn : d ∈ [(⟨nextId s, req.email, req.phoneNumber, some P.id,
            "secondary", now, now⟩ : Contact)] := List.mem_of_mem_filter hd
        have : d = ⟨nextId s, req.email, req.phoneNumber, some P.id,
            "secondary", now, now⟩ := List.mem_singleton.mp hdn
        rw [this] at hde
        exact (Nat.ne_of_lt (id_lt_nextId hcs)) hde.symm

/-- Witness for C10: two primaries, and two matched secondaries with email
"c" that belong to different primaries; the first match's primary (record 1)
wins and record 4 (linked to record 2) contributes nothing. -/
theorem claim_C10_witness :
    ((([⟨3, some "c", none, some 1, "secondary", 2, 2⟩,
        ⟨4, some "c", none, some 2, "secondary", 3, 3⟩] : List Contact).filter
          (fun c => c.linkPrecedence == "primary")).length ≤ 1 →
      (identifyCore ⟨some "c", none⟩ 9
        [⟨1, some "a", none, none, "primary", 0, 0⟩,
         ⟨2, some "b", none, none, "primary", 1, 1⟩,
         ⟨3, some "c", none, some 1, "secondary", 2, 2⟩,
         ⟨4, some "c", none, some 2, "secondary", 3, 3⟩]).store =
        [⟨1, some "a", none, none, "primary", 0, 0⟩,
         ⟨2, some "b", none, none, "primary", 1, 1⟩,
         ⟨3, some "c", none, some 1, "secondary", 2, 2⟩,
         ⟨4, some "c", none, some 2, "secondary", 3, 3⟩] ∨
        ∃ nc, (identifyCore ⟨some "c", none⟩ 9
          [⟨1, some "a", none, none, "primary", 0, 0⟩,
           ⟨2, some "b", none, none, "primary", 1, 1⟩,
           ⟨3, some "c", none, some 1, "secondary", 2, 2⟩,
           ⟨4, some "c", none, some 2, "secondary", 3, 3⟩]).store =
          [⟨1, some "a", none, none, "primary", 0, 0⟩,
           ⟨2, some "b", none, none, "primary", 1, 1⟩,
           ⟨3, some "c", none, some 1, "secondary", 2, 2⟩,
           ⟨4, some "c", none, some 2, "secondary", 3, 3⟩] ++ [nc]) ∧
    (∀ P, ([⟨3, some "c", none, some 1, "secondary", 2, 2⟩,
        ⟨4, some "c", none, some 2, "secondary", 3, 3⟩] : List Contact).filter
          (fun c => c.linkPrecedence == "primary") = [] →
      find_primary_contact
        [⟨1, some "a", none, none, "primary", 0, 0⟩,
         ⟨2, some "b", none, none, "primary", 1, 1⟩,
         ⟨3, some "c", none, some 1, "secondary", 2, 2⟩,
         ⟨4, some "c", none, some 2, "secondary", 3, 3⟩]
        (Contact.linkedId ⟨3, some "c", none, some 1, "secondary", 2, 2⟩) 5 = some P →
      identifyCore ⟨some "c", none⟩ 9
        [⟨1, some "a", none, none, "primary", 0, 0⟩,
         ⟨2, some "b", none, none, "primary", 1, 1⟩,
         ⟨3, some "c", none, some 1, "secondary", 2, 2⟩,
         ⟨4, some "c", none, some 2, "secondary", 3, 3⟩] =
        afterPrimary ⟨some "c", none⟩ 9
          [⟨1, some "a", none, none, "primary", 0, 0⟩,
           ⟨2, some "b", none, none, "primary", 1, 1⟩,
           ⟨3, some "c", none, some 1, "secondary", 2, 2⟩,
           ⟨4, some "c", none, some 2, "secondary", 3, 3⟩] [] P ∧
      ∀ c ∈ ([⟨3, some "c", none, some 1, "secondary", 2, 2⟩,
          ⟨4, some "c", none, some 2, "secondary", 3, 3⟩] : List Contact),
        c.linkedId ≠ some P.id →
        ∀ r, (identifyCore ⟨some "c", none⟩ 9
          [⟨1, some "a", none, none, "primary", 0, 0⟩,
           ⟨2, some "b", none, none, "primary", 1, 1⟩,
           ⟨3, some "c", none, some 1, "secondary", 2, 2⟩,
           ⟨4, some "c", none, some 2, "secondary", 3, 3⟩]).result = .ok r →
          c.id ∉ r.secondaryContactIds) :=
  claim_C10 ⟨some "c", none⟩ 9
    [⟨1, some "a", none, none, "primary", 0, 0⟩,
     ⟨2, some "b", none, none, "primary", 1, 1⟩,
     ⟨3, some "c", none, some 1, "secondary", 2, 2⟩,
     ⟨4, some "c", none, some 2, "secondary", 3, 3⟩]
    ⟨3, some "c", none, some 1, "secondary", 2, 2⟩
    [⟨4, some "c", none, some 2, "secondary", 3, 3⟩]
    (by decide) (by decide)

/-- The commit-list argument of `afterPrimary` influences neither the store
nor the result. -/
theorem afterPrimary_store_result_cm (req : IdentifyRequest) (now : Nat)
    (s1 : List Contact) (cm : List (List Contact)) (pc : Contact) :
    (afterPrimary req now s1 cm pc).store = (afterPrimary req now s1 [] pc).store ∧
    (afterPrimary req now s1 cm pc).result = (afterPrimary req now s1 [] pc).result := by
  rw [afterPrimary_eq, afterPrimary_eq]
  cases hn : noveltyNeeded req (get_all_linked_contacts s1 pc.id) <;> simp [hn]

theorem workingPrimary_eq (req : IdentifyRequest) (now : Nat) (s : List Contact)
    (m0 : Contact) (rest : List Contact)
    (hm : s.filter (matchesRequest req) = m0 :: rest) :
    workingPrimary req now s =
      match mergeStep now s ((m0 :: rest).filter (fun c => c.linkPrecedence == "primary")) with
      | (p :: _, _) => some p
      | ([], s1) => find_primary_contact s1 m0.linkedId (s1.length + 1) := by
  unfold workingPrimary
  rw [hm]

theorem mergedStore_eq (req : IdentifyRequest) (now : Nat) (s : List Contact)
    (m0 : Contact) (rest : List Contact)
    (hm : s.filter (matchesRequest req) = m0 :: rest) :
    mergedStore req now s =
      (mergeStep now s ((m0 :: rest).filter (fun c => c.linkPrecedence == "primary"))).2 := by
  unfold mergedStore
  rw [hm]

/-- Whenever matches exist and the working primary resolves, the call's
store and result are those of `afterPrimary` on the post-merge store. -/
theorem identifyCore_resolved (req : IdentifyRequest) (now : Nat) (s : List Contact)
    (m0 : Contact) (rest : List Contact) (pc : Contact)
    (hm : s.filter (matchesRequest req) = m0 :: rest)
    (hw : workingPrimary req now s = some pc) :
    (identifyCore req now s).store =
      (afterPrimary req now (mergedStore req now s) [] pc).store ∧
    (identifyCore req now s).result =
      (afterPrimary req now (mergedStore req now s) [] pc).result := by
  cases hpcs : (m0 :: rest).filter (fun c => c.linkPrecedence == "primary") with
  | nil =>
    have hfind : find_primary_contact s m0.linkedId (s.length + 1) = some pc := by
      rw [← hw, workingPrimary_eq req now s m0 rest hm, hpcs]
      rfl
    have heq : identifyCore req now s = afterPrimary req now s [] pc := by
      rw [identifyCore_noPrimary now hm hpcs, hfind]
    have hms : mergedStore req now s = s := by
      rw [mergedStore_eq req now s m0 rest hm, hpcs]
      rfl
    rw [heq, hms]
    exact ⟨rfl, rfl⟩
  | cons p ps =>
    cases ps with
    | nil =>
      have hwp : workingPrimary req now s = some p := by
        rw [workingPrimary_eq req now s m0 rest hm, hpcs]
        rfl
      have hpc : pc = p := by
        rw [hwp] at hw
        exact (Option.some_inj.mp hw).symm
      rw [hpc]
      have hms : mergedStore req now s = s := by
        rw [mergedStore_eq req now s m0 rest hm, hpcs]
        rfl
      rw [identifyCore_onePrimary now hm hpcs, hms]
      exact ⟨rfl, rfl⟩
    | cons q qs =>
      have hlen : ((m0 :: rest).filter (fun c => c.linkPrecedence == "primary")).length > 1 := by
        rw [hpcs]
        simp only [List.length_cons]
        omega
      have hlen2 : (p :: q :: qs).length > 1 := by
        simp only [List.length_cons]
        omega
      have hsne : sortByCreated (p :: q :: qs) ≠ [] := by
        intro h
        have hl := (sortByCreated_perm (p :: q :: qs)).length_eq
        rw [h] at hl
        simp at hl
      cases hsort' : sortByCreated (p :: q :: qs) with
      | nil => exact absurd hsort' hsne
      | cons oldest others =>
        have hsort : sortByCreated ((m0 :: rest).filter
            (fun c => c.linkPrecedence == "primary")) = oldest :: others := by
          rw [hpcs, hsort']
        have hmerge : mergeStep now s (p :: q :: qs) =
            (oldest :: others,
             s.map (demoteFn now oldest.id (others.map (fun c => c.id)))) := by
          unfold mergeStep
          rw [if_pos hlen2, hsort']
        have hwp : workingPrimary req now s = some oldest := by
          rw [workingPrimary_eq req now s m0 rest hm, hpcs, hmerge]
        have hpc : pc = oldest := by
          rw [hwp] at hw
          exact (Option.some_inj.mp hw).symm
        rw [hpc]
        have hms : mergedStore req now s =
            s.map (demoteFn now oldest.id (others.map (fun c => c.id))) := by
          rw [mergedStore_eq req now s m0 rest hm, hpcs, hmerge]
        rw [identifyCore_merge now hm hsort hlen, hms]
        exact afterPrimary_store_result_cm req now _ _ oldest

/-- The code's novelty check, rephrased as the claim states it for a
request whose fields are null or non-empty. -/
theorem noveltyNeeded_iff (req : IdentifyRequest) (g : List Contact)
    (he : req.email ≠ some "") (hph : req.phoneNumber ≠ some "") :
    noveltyNeeded req g = true ↔
      ((∃ e, req.email = some e ∧ e ∉ truthyEmails g) ∨
       (∃ ph, req.phoneNumber = some ph ∧ ph ∉ truthyPhones g)) := by
  unfold noveltyNeeded
  cases hre : req.email with
  | none =>
    cases hrp : req.phoneNumber with
    | none => simp [present]
    | some ph =>
      have hne : ph ≠ "" := fun h => hph (by rw [hrp, h])
      simp [present, hne, List.elem_iff]
  | some e =>
    have hnee : e ≠ "" := fun h => he (by rw [hre, h])
    cases hrp : req.phoneNumber with
    | none => simp [present, hnee, List.elem_iff]
    | some ph =>
      have hne : ph ≠ "" := fun h => hph (by rw [hrp, h])
      simp [present, hnee, hne, List.elem_iff]

/-- Counterexample to claim C4's final clause: a call that merges two
primaries whose combined graph already covers both given fields creates no
record, yet the store is changed (record 2 is demoted), so "the store is
unchanged" fails. -/
theorem claim_C4_counterexample :
    "a@x" ∈ truthyEmails (get_all_linked_contacts
      (identifyCore ⟨some "a@x", some "222"⟩ 5
        [⟨1, some "a@x", some "111", none, "primary", 0, 0⟩,
         ⟨2, some "b@x", some "222", none, "primary", 1, 1⟩]).store 1) ∧
    "222" ∈ truthyPhones (get_all_linked_contacts
      (identifyCore ⟨some "a@x", some "222"⟩ 5
        [⟨1, some "a@x", some "111", none, "primary", 0, 0⟩,
         ⟨2, some "b@x", some "222", none, "primary", 1, 1⟩]).store 1) ∧
    (identifyCore ⟨some "a@x", some "222"⟩ 5
      [⟨1, some "a@x", some "111", none, "primary", 0, 0⟩,
       ⟨2, some "b@x", some "222", none, "primary", 1, 1⟩]).store.length = 2 ∧
    (identifyCore ⟨some "a@x", some "222"⟩ 5
      [⟨1, some "a@x", some "111", none, "primary", 0, 0⟩,
       ⟨2, some "b@x", some "222", none, "primary", 1, 1⟩]).store ≠
      [⟨1, some "a@x", some "111", none, "primary", 0, 0⟩,
       ⟨2, some "b@x", some "222", none, "primary", 1, 1⟩] := by
  decide

/-- Claim C4 as amended: when matches exist and the working primary
resolves, a new record is created iff the given email is non-null and
absent from the graph's emails or the given phone is non-null and absent
from the graph's phones; the created record is a single secondary carrying
the given email/phone with `linkedId` the working primary's id; and on full
coverage no record is created — the store equals the post-merge store,
i.e. unchanged except for any demotions the merge pass performed. -/
theorem claim_C4_amended (req : IdentifyRequest) (now : Nat) (s : List Contact)
    (m0 : Contact) (rest : List Contact) (pc : Contact)
    (hm : s.filter (matchesRequest req) = m0 :: rest)
    (hw : workingPrimary req now s = some pc)
    (he : req.email ≠ some "") (hph : req.phoneNumber ≠ some "") :
    ((identifyCore req now s).store =
        mergedStore req now s ++
          [⟨nextId (mergedStore req now s), req.email, req.phoneNumber, some pc.id,
            "secondary", now, now⟩] ↔
      ((∃ e, req.email = some e ∧
          e ∉ truthyEmails (get_all_linked_contacts (mergedStore req now s) pc.id)) ∨
       (∃ ph, req.phoneNumber = some ph ∧
          ph ∉ truthyPhones (get_all_linked_contacts (mergedStore req now s) pc.id)))) ∧
    (¬ ((∃ e, req.email = some e ∧
          e ∉ truthyEmails (get_all_linked_contacts (mergedStore req now s) pc.id)) ∨
        (∃ ph, req.phoneNumber = some ph ∧
          ph ∉ truthyPhones (get_all_linked_contacts (mergedStore req now s) pc.id))) →
      (identifyCore req now s).store = mergedStore req now s) := by
  have hres := (identifyCore_resolved req now s m0 rest pc hm hw).1
  rw [afterPrimary_eq] at hres
  rw [← noveltyNeeded_iff req (get_all_linked_contacts (mergedStore req now s) pc.id) he hph]
  cases hn : noveltyNeeded req (get_all_linked_contacts (mergedStore req now s) pc.id) with
  | false =>
    rw [if_neg (by simp [hn])] at hres
    constructor
    · constructor
      · intro hst
        rw [hres] at hst
        have := congrArg List.length hst
        simp at this
      · intro h
        exact absurd h (by simp [hn])
    · intro _
      exact hres
  | true =>
    rw [if_pos (by simp [hn])] at hres
    constructor
    · exact ⟨fun _ => rfl, fun _ => hres⟩
    · intro h
      exact absurd rfl h

/-- Witness for the amended C4: one matched primary, request with a novel
phone; the creation happens exactly because the phone is new. -/
theorem claim_C4_amended_witness :
    ((identifyCore ⟨some "a@x", some "222"⟩ 7
        [⟨1, some "a@x", some "111", none, "primary", 0, 0⟩]).store =
      mergedStore ⟨some "a@x", some "222"⟩ 7
          [⟨1, some "a@x", some "111", none, "primary", 0, 0⟩] ++
        [⟨nextId (mergedStore ⟨some "a@x", some "222"⟩ 7
            [⟨1, some "a@x", some "111", none, "primary", 0, 0⟩]),
          some "a@x", some "222", some 1, "secondary", 7, 7⟩] ↔
      ((∃ e, (some "a@x" : Option String) = some e ∧
          e ∉ truthyEmails (get_all_linked_contacts
            (mergedStore ⟨some "a@x", some "222"⟩ 7
              [⟨1, some "a@x", some "111", none, "primary", 0, 0⟩]) 1)) ∨
       (∃ ph, (some "222" : Option String) = some ph ∧
          ph ∉ truthyPhones (get_all_linked_contacts
            (mergedStore ⟨some "a@x", some "222"⟩ 7
              [⟨1, some "a@x", some "111", none, "primary", 0, 0⟩]) 1)))) ∧
    (¬ ((∃ e, (some "a@x" : Option String) = some e ∧
          e ∉ truthyEmails (get_all_linked_contacts
            (mergedStore ⟨some "a@x", some "222"⟩ 7
              [⟨1, some "a@x", some "111", none, "primary", 0, 0⟩]) 1)) ∨
        (∃ ph, (some "222" : Option String) = some ph ∧
          ph ∉ truthyPhones (get_all_linked_contacts
            (mergedStore ⟨some "a@x", some "222"⟩ 7
              [⟨1, some "a@x", some "111", none, "primary", 0, 0⟩]) 1))) →
      (identifyCore ⟨some "a@x", some "222"⟩ 7
        [⟨1, some "a@x", some "111", none, "primary", 0, 0⟩]).store =
        mergedStore ⟨some "a@x", some "222"⟩ 7
          [⟨1, some "a@x", some "111", none, "primary", 0, 0⟩]) :=
  claim_C4_amended ⟨some "a@x", some "222"⟩ 7
    [⟨1, some "a@x", some "111", none, "primary", 0, 0⟩]
    ⟨1, some "a@x", some "111", none, "primary", 0, 0⟩ []
    ⟨1, some "a@x", some "111", none, "primary", 0, 0⟩
    (by decide) (by decide) (by decide) (by decide)

/-! ### Infrastructure for the idempotence claim -/

theorem identifyCore_invalid (req : IdentifyRequest) (now : Nat) (s : List Contact)
    (hg : (!(present req.email) && !(present req.phoneNumber)) = true) :
    identifyCore req now s = ⟨.err .invalidRequest, s, []⟩ := by
  unfold identifyCore
  rw [hg]
  simp

theorem findById_append_right (i : Nat) (t : List Contact) :
    ∀ (s : List Contact), (∀ c ∈ s, (c.id == i) = false) →
      findById (s ++ t) i = findById t i := by
  intro s
  induction s with
  | nil => intro _; rfl
  | cons a s ih =>
    intro h
    simp only [findById, List.cons_append, List.find?_cons, h a (List.mem_cons_self a s)]
    exact ih (fun c hc => h c (List.mem_cons_of_mem a hc))

theorem wfContact_spec {s : List Contact} {c : Contact} (h : wfContact s c = true) :
    (c.linkPrecedence = "primary" ∧ c.linkedId = none) ∨
    (c.linkPrecedence = "secondary" ∧ ∃ j p, c.linkedId = some j ∧
      findById s j = some p ∧ p.linkPrecedence = "primary") := by
  unfold wfContact at h
  rcases Bool.or_eq_true_iff.mp h with h | h
  · obtain ⟨h1, h2⟩ := Bool.and_eq_true_iff.mp h
    exact Or.inl ⟨eq_of_beq h1, eq_of_beq h2⟩
  · obtain ⟨h1, h2⟩ := Bool.and_eq_true_iff.mp h
    refine Or.inr ⟨eq_of_beq h1, ?_⟩
    split at h2
    · simp at h2
    · rename_i j hl
      split at h2
      · simp at h2
      · rename_i p hf
        exact ⟨j, p, hl, hf, eq_of_beq h2⟩

theorem wf_no_link_to_fresh {s : List Contact} (hwf : WF s) :
    ∀ c ∈ s, (c.linkedId == some (nextId s)) = false := by
  intro c hc
  rcases wfContact_spec (hwf.2 c hc) with ⟨_, hl⟩ | ⟨_, j, p, hl, hf, _⟩
  · rw [hl]; rfl
  · rw [hl]
    have hj : j = p.id := (findById_mem hf).2.symm
    have hlt : p.id < nextId s := id_lt_nextId (findById_mem hf).1
    refine beq_eq_false_iff_ne.mpr (fun he => ?_)
    have hje := Option.some.inj he
    rw [hj] at hje
    exact Nat.ne_of_lt hlt hje

theorem find_one_hop {s : List Contact} {j : Nat} {p : Contact} (fuel : Nat)
    (hf : findById s j = some p) (hp : p.linkPrecedence = "primary") :
    find_primary_contact s (some j) (fuel + 1) = some p := by
  simp [find_primary_contact, hf, hp]

theorem get_all_eq {s : List Contact} {pid : Nat} {pc : Contact}
    (h1 : findById s pid = some pc) (h2 : pc.linkPrecedence = "primary") :
    get_all_linked_contacts s pid =
      pc :: s.filter (fun c => c.linkedId == some pid && c.linkPrecedence == "secondary") := by
  unfold get_all_linked_contacts
  rw [h1]
  simp [h2]

theorem present_some {o : Option String} (h : present o = true) :
    ∃ e, o = some e ∧ e ≠ "" := by
  cases o with
  | none => simp [present] at h
  | some e =>
    refine ⟨e, rfl, ?_⟩
    simpa [present] using h

theorem noveltyNeeded_mem_false {req : IdentifyRequest} {g : List Contact} {c : Contact}
    (hc : c ∈ g) (he : c.email = req.email) (hp : c.phoneNumber = req.phoneNumber) :
    noveltyNeeded req g = false := by
  unfold noveltyNeeded
  rw [Bool.or_eq_false_iff]
  constructor
  · cases hpr : present req.email with
    | false => rw [Bool.false_and]
    | true =>
      obtain ⟨e, heq, hne⟩ := present_some hpr
      have hmem : e ∈ truthyEmails g := mem_truthyEmails hc (by rw [he, heq]) hne
      have hcont : (truthyEmails g).contains (req.email.getD "") = true := by
        rw [heq]
        exact List.elem_iff.mpr hmem
      rw [hcont]
      simp
  · cases hpr : present req.phoneNumber with
    | false => rw [Bool.false_and]
    | true =>
      obtain ⟨ph, heq, hne⟩ := present_some hpr
      have hmem : ph ∈ truthyPhones g := mem_truthyPhones hc (by rw [hp, heq]) hne
      have hcont : (truthyPhones g).contains (req.phoneNumber.getD "") = true := by
        rw [heq]
        exact List.elem_iff.mpr hmem
      rw [hcont]
      simp

theorem buildResponse_self (i : Nat) (em ph : Option String) (ca ua : Nat) :
    buildResponse ⟨i, em, ph, none, "primary", ca, ua⟩
        [⟨i, em, ph, none, "primary", ca, ua⟩] =
      ⟨i, if present em then [em.getD ""] else [],
        if present ph then [ph.getD ""] else [], []⟩ := by
  unfold buildResponse truthyEmails truthyPhones
  cases em with
  | none =>
    cases ph with
    | none => simp [present]
    | some p2 =>
      by_cases hp2 : p2 = "" <;> simp [present, hp2]
  | some e2 =>
    cases ph with
    | none =>
      by_cases he2 : e2 = "" <;> simp [present, he2]
    | some p2 =>
      by_cases he2 : e2 = "" <;> by_cases hp2 : p2 = "" <;>
        simp [present, he2, hp2]

theorem nextId_map_demote (now oid : Nat) (ids : List Nat) (s : List Contact) :
    nextId (s.map (demoteFn now oid ids)) = nextId s := by
  unfold nextId
  congr 1
  induction s with
  | nil => rfl
  | cons a t ih => simp [List.foldr_cons, demoteFn_id, ih]

theorem contains_false_of_not_mem {l : List Nat} {a : Nat} (h : a ∉ l) :
    l.contains a = false := by
  cases hc : l.contains a with
  | false => rfl
  | true => exact absurd (List.elem_iff.mp hc) h

/-- Core of the repeat-call argument: running the request on `s1 ++ [nc]`,
where `nc` is the secondary the first call just created, resolves the same
working primary `pc` (hypothesis `hres2`), finds the graph enlarged by
exactly `nc`, sees no novelty, and reproduces response and store. -/
theorem second_call_after_creation (req : IdentifyRequest) (now1 now2 : Nat)
    (s1 : List Contact) (pc nc : Contact)
    (hnc : nc = ⟨nextId s1, req.email, req.phoneNumber, some pc.id, "secondary", now1, now1⟩)
    (hfind : findById s1 pc.id = some pc)
    (hprim : pc.linkPrecedence = "primary")
    (hres2 : identifyCore req now2 (s1 ++ [nc]) =
      afterPrimary req now2 (s1 ++ [nc]) [] pc) :
    (identifyCore req now2 (s1 ++ [nc])).result =
      .ok (buildResponse pc (get_all_linked_contacts s1 pc.id ++ [nc])) ∧
    (identifyCore req now2 (s1 ++ [nc])).store = s1 ++ [nc] := by
  have hgA : get_all_linked_contacts (s1 ++ [nc]) pc.id =
      get_all_linked_contacts s1 pc.id ++ [nc] := by
    rw [get_all_eq (findById_append hfind) hprim, get_all_eq hfind hprim,
      List.filter_append]
    have hsnc : ([nc] : List Contact).filter
        (fun c => c.linkedId == some pc.id && c.linkPrecedence == "secondary") = [nc] := by
      rw [List.filter_cons, if_pos (by rw [hnc]; simp)]
      rfl
    rw [hsnc]
    rfl
  have hnov2 : noveltyNeeded req (get_all_linked_contacts s1 pc.id ++ [nc]) = false :=
    noveltyNeeded_mem_false (List.mem_append_right _ (List.mem_singleton.mpr rfl))
      (by rw [hnc]) (by rw [hnc])
  rw [hres2, afterPrimary_eq, hgA, if_neg (by simp [hnov2])]
  exact ⟨rfl, rfl⟩

/-- The matched list and its primary part after appending the created
secondary `nc`. -/
theorem matching_after_creation (req : IdentifyRequest) (now1 : Nat)
    (s1 : List Contact) (pc nc m1 : Contact) (rest1 : List Contact)
    (hnc : nc = ⟨nextId s1, req.email, req.phoneNumber, some pc.id, "secondary", now1, now1⟩)
    (hv : (present req.email || present req.phoneNumber) = true)
    (hm1 : s1.filter (matchesRequest req) = m1 :: rest1) :
    (s1 ++ [nc]).filter (matchesRequest req) = m1 :: (rest1 ++ [nc]) ∧
    (m1 :: (rest1 ++ [nc])).filter (fun c => c.linkPrecedence == "primary") =
      (m1 :: rest1).filter (fun c => c.linkPrecedence == "primary") := by
  have hmnc : matchesRequest req nc = true := by
    rw [hnc]
    exact matchesRequest_new req hv _ _ _ _ _
  have hfnc : ([nc] : List Contact).filter (matchesRequest req) = [nc] := by
    rw [List.filter_cons, if_pos (by rw [hmnc])]
    rfl
  have hsecnc : ([nc] : List Contact).filter
      (fun c => c.linkPrecedence == "primary") = [] := by
    rw [List.filter_cons, if_neg (by rw [hnc]; simp)]
    rfl
  constructor
  · rw [List.filter_append, hm1, hfnc]
    rfl
  · rw [← List.cons_append, List.filter_append, hsecnc, List.append_nil]

/-- Re-running the request after a call that went through `afterPrimary`
with exactly one primary among its matches reproduces the same result and
leaves the store untouched. -/
theorem second_call_onePrimary (req : IdentifyRequest) (now1 now2 : Nat)
    (s1 : List Contact) (pc m1 : Contact) (rest1 : List Contact)
    (cm : List (List Contact))
    (hm1 : s1.filter (matchesRequest req) = m1 :: rest1)
    (hp1 : (m1 :: rest1).filter (fun c => c.linkPrecedence == "primary") = [pc])
    (hfind : findById s1 pc.id = some pc)
    (hprim : pc.linkPrecedence = "primary") :
    (identifyCore req now2 ((afterPrimary req now1 s1 cm pc).store)).result =
      (afterPrimary req now1 s1 cm pc).result ∧
    (identifyCore req now2 ((afterPrimary req now1 s1 cm pc).store)).store =
      (afterPrimary req now1 s1 cm pc).store := by
  have hv : (present req.email || present req.phoneNumber) = true := valid_of_matching hm1
  cases hn1 : noveltyNeeded req (get_all_linked_contacts s1 pc.id) with
  | false =>
    have hout : afterPrimary req now1 s1 cm pc =
        ⟨.ok (buildResponse pc (get_all_linked_contacts s1 pc.id)), s1, cm⟩ := by
      rw [afterPrimary_eq, if_neg (by simp [hn1])]
    rw [hout]
    show (identifyCore req now2 s1).result =
        .ok (buildResponse pc (get_all_linked_contacts s1 pc.id)) ∧
      (identifyCore req now2 s1).store = s1
    rw [identifyCore_onePrimary now2 hm1 hp1, afterPrimary_eq, if_neg (by simp [hn1])]
    exact ⟨rfl, rfl⟩
  | true =>
    obtain ⟨hmA, hpA0⟩ := matching_after_creation req now1 s1 pc
      ⟨nextId s1, req.email, req.phoneNumber, some pc.id, "secondary", now1, now1⟩
      m1 rest1 rfl hv hm1
    have hpA := hpA0.trans hp1
    have hout : afterPrimary req now1 s1 cm pc =
        ⟨.ok (buildResponse pc (get_all_linked_contacts s1 pc.id ++
            [⟨nextId s1, req.email, req.phoneNumber, some pc.id, "secondary", now1, now1⟩])),
         s1 ++ [⟨nextId s1, req.email, req.phoneNumber, some pc.id, "secondary", now1, now1⟩],
         cm ++ [s1 ++ [⟨nextId s1, req.email, req.phoneNumber, some pc.id,
            "secondary", now1, now1⟩]]⟩ := by
      rw [afterPrimary_eq, if_pos (by simp [hn1])]
    rw [hout]
    have hres2 := identifyCore_onePrimary now2 hmA hpA
    exact second_call_after_creation req now1 now2 s1 pc _ rfl hfind hprim hres2

/-- Re-running the request after a call that went through `afterPrimary`
with only secondary matches (the one-hop well-formed situation) reproduces
the same result and leaves the store untouched. -/
theorem second_call_noPrimary (req : IdentifyRequest) (now1 now2 : Nat)
    (s1 : List Contact) (pc m1 : Contact) (rest1 : List Contact) (j : Nat)
    (cm : List (List Contact))
    (hm1 : s1.filter (matchesRequest req) = m1 :: rest1)
    (hp1 : (m1 :: rest1).filter (fun c => c.linkPrecedence == "primary") = [])
    (hj : m1.linkedId = some j)
    (hjf : findById s1 j = some pc)
    (hprim : pc.linkPrecedence = "primary") :
    (identifyCore req now2 ((afterPrimary req now1 s1 cm pc).store)).result =
      (afterPrimary req now1 s1 cm pc).result ∧
    (identifyCore req now2 ((afterPrimary req now1 s1 cm pc).store)).store =
      (afterPrimary req now1 s1 cm pc).store := by
  have hv : (present req.email || present req.phoneNumber) = true := valid_of_matching hm1
  have hfind : findById s1 pc.id = some pc := by
    rw [(findById_mem hjf).2]
    exact hjf
  cases hn1 : noveltyNeeded req (get_all_linked_contacts s1 pc.id) with
  | false =>
    have hout : afterPrimary req now1 s1 cm pc =
        ⟨.ok (buildResponse pc (get_all_linked_contacts s1 pc.id)), s1, cm⟩ := by
      rw [afterPrimary_eq, if_neg (by simp [hn1])]
    rw [hout]
    show (identifyCore req now2 s1).result =
        .ok (buildResponse pc (get_all_linked_contacts s1 pc.id)) ∧
      (identifyCore req now2 s1).store = s1
    have h2 : identifyCore req now2 s1 = afterPrimary req now2 s1 [] pc := by
      rw [identifyCore_noPrimary now2 hm1 hp1, hj, find_one_hop s1.length hjf hprim]
    rw [h2, afterPrimary_eq, if_neg (by simp [hn1])]
    exact ⟨rfl, rfl⟩
  | true =>
    obtain ⟨hmA, hpA0⟩ := matching_after_creation req now1 s1 pc
      ⟨nextId s1, req.email, req.phoneNumber, some pc.id, "secondary", now1, now1⟩
      m1 rest1 rfl hv hm1
    have hpA := hpA0.trans hp1
    have hout : afterPrimary req now1 s1 cm pc =
        ⟨.ok (buildResponse pc (get_all_linked_contacts s1 pc.id ++
            [⟨nextId s1, req.email, req.phoneNumber, some pc.id, "secondary", now1, now1⟩])),
         s1 ++ [⟨nextId s1, req.email, req.phoneNumber, some pc.id, "secondary", now1, now1⟩],
         cm ++ [s1 ++ [⟨nextId s1, req.email, req.phoneNumber, some pc.id,
            "secondary", now1, now1⟩]]⟩ := by
      rw [afterPrimary_eq, if_pos (by simp [hn1])]
    rw [hout]
    have hres2 : identifyCore req now2 (s1 ++
        [⟨nextId s1, req.email, req.phoneNumber, some pc.id, "secondary", now1, now1⟩]) =
        afterPrimary req now2 (s1 ++
          [⟨nextId s1, req.email, req.phoneNumber, some pc.id, "secondary", now1, now1⟩]) [] pc := by
      rw [identifyCore_noPrimary now2 hmA hpA, hj,
        find_one_hop _ (findById_append hjf) hprim]
    exact second_call_after_creation req now1 now2 s1 pc _ rfl hfind hprim hres2

theorem matchesRequest_fields {req : IdentifyRequest} {c : Contact}
    (he : c.email = req.email) (hp : c.phoneNumber = req.phoneNumber)
    (hv : (present req.email || present req.phoneNumber) = true) :
    matchesRequest req c = true := by
  unfold matchesRequest
  rw [he, hp]
  simp only [beq_self_eq_true, Bool.and_true]
  exact hv

/-- Re-running the request after a call that created a fresh primary (the
no-match branch) matches exactly that record, finds both fields covered,
and changes nothing. -/
theorem second_call_noMatch (req : IdentifyRequest) (now2 : Nat) (s : List Contact)
    (nc : Contact)
    (hnce : nc.email = req.email) (hncp : nc.phoneNumber = req.phoneNumber)
    (hncid : nc.id = nextId s) (hnclid : nc.linkedId = none)
    (hncprec : nc.linkPrecedence = "primary")
    (hwf : WF s)
    (hv : (present req.email || present req.phoneNumber) = true)
    (hm : s.filter (matchesRequest req) = []) :
    identifyCore req now2 (s ++ [nc]) =
      ⟨.ok (buildResponse nc [nc]), s ++ [nc], []⟩ := by
  have hmnc : matchesRequest req nc = true := matchesRequest_fields hnce hncp hv
  have hmB : (s ++ [nc]).filter (matchesRequest req) = nc :: [] := by
    rw [List.filter_append, hm, List.filter_cons, if_pos (by rw [hmnc])]
    rfl
  have hpB : ((nc : Contact) :: []).filter (fun c => c.linkPrecedence == "primary") = [nc] := by
    rw [List.filter_cons, if_pos (by rw [hncprec]; rfl)]
    rfl
  rw [identifyCore_onePrimary now2 hmB hpB]
  have hno : ∀ c ∈ s, (c.id == nc.id) = false := by
    intro c hc
    refine beq_eq_false_iff_ne.mpr (fun he => ?_)
    exact (Nat.ne_of_lt (id_lt_nextId hc)) (he.trans hncid)
  have hfind : findById (s ++ [nc]) nc.id = some nc := by
    rw [findById_append_right nc.id [nc] s hno]
    simp [findById, List.find?_cons]
  have hcondnc : (nc.linkedId == some nc.id && nc.linkPrecedence == "secondary") = false := by
    rw [hnclid]
    rfl
  have hfilterB : (s ++ [nc]).filter
      (fun c => c.linkedId == some nc.id && c.linkPrecedence == "secondary") = [] := by
    rw [List.filter_append]
    have h1 : s.filter
        (fun c => c.linkedId == some nc.id && c.linkPrecedence == "secondary") = [] := by
      rw [List.filter_eq_nil_iff]
      intro c hc hcond
      have hc1 := (Bool.and_eq_true_iff.mp hcond).1
      rw [hncid, wf_no_link_to_fresh hwf c hc] at hc1
      simp at hc1
    have h2 : ((nc : Contact) :: []).filter
        (fun c => c.linkedId == some nc.id && c.linkPrecedence == "secondary") = [] := by
      rw [List.filter_cons, if_neg (by simp [hcondnc])]
      rfl
    rw [h1, h2]
    rfl
  have hg : get_all_linked_contacts (s ++ [nc]) nc.id = [nc] := by
    rw [get_all_eq hfind hncprec, hfilterB]
  have hnov : noveltyNeeded req [nc] = false :=
    noveltyNeeded_mem_false (List.mem_singleton.mpr rfl) hnce hncp
  rw [afterPrimary_eq, hg, if_neg (by simp [hnov])]

set_option maxHeartbeats 1000000 in
/-- Claim C3: on a well-formed store (distinct store-assigned ids, every
secondary linked to an existing primary, primaries unlinked — the data
model invariants of the spec), calling Identify twice in succession with
the same (email, phone) yields the same result both times and the second
call performs no store change at all: the state after the second call is
exactly the state after the first. -/
theorem claim_C3 (req : IdentifyRequest) (now1 now2 : Nat) (s : List Contact)
    (hwf : WF s) :
    (identifyCore req now2 (identifyCore req now1 s).store).result =
      (identifyCore req now1 s).result ∧
    (identifyCore req now2 (identifyCore req now1 s).store).store =
      (identifyCore req now1 s).store := by
  cases hg : (!(present req.email) && !(present req.phoneNumber)) with
  | true =>
    rw [identifyCore_invalid req now1 s hg]
    show (identifyCore req now2 s).result = .err .invalidRequest ∧
      (identifyCore req now2 s).store = s
    rw [identifyCore_invalid req now2 s hg]
    exact ⟨rfl, rfl⟩
  | false =>
    have hv : (present req.email || present req.phoneNumber) = true := by
      cases hpe : present req.email
      · cases hpp : present req.phoneNumber
        · rw [hpe, hpp] at hg
          simp at hg
        · simp [hpe, hpp]
      · simp [hpe]
    cases hm : s.filter (matchesRequest req) with
    | nil =>
      have h1 := identifyCore_noMatch now1 hv hm
      have h2 := second_call_noMatch req now2 s
        ⟨nextId s, req.email, req.phoneNumber, none, "primary", now1, now1⟩
        rfl rfl rfl rfl rfl hwf hv hm
      rw [h1]
      simp [h2, buildResponse_self]
    | cons m0 rest =>
      cases hpcs : (m0 :: rest).filter (fun c => c.linkPrecedence == "primary") with
      | nil =>
        have hm0s : m0 ∈ s := List.mem_of_mem_filter (hm ▸ List.mem_cons_self m0 rest)
        have hm0np : (m0.linkPrecedence == "primary") = false := by
          cases hb : (m0.linkPrecedence == "primary") with
          | false => rfl
          | true =>
            have hmf : m0 ∈ (m0 :: rest).filter (fun c => c.linkPrecedence == "primary") :=
              List.mem_filter.mpr ⟨List.mem_cons_self m0 rest, hb⟩
            rw [hpcs] at hmf
            exact absurd hmf (List.not_mem_nil m0)
        rcases wfContact_spec (hwf.2 m0 hm0s) with ⟨hp', _⟩ | ⟨_, j, p, hl, hf, hpp⟩
        · rw [hp'] at hm0np
          simp at hm0np
        · have heq1 : identifyCore req now1 s = afterPrimary req now1 s [] p := by
            rw [identifyCore_noPrimary now1 hm hpcs, hl, find_one_hop s.length hf hpp]
          rw [heq1]
          exact second_call_noPrimary req now1 now2 s p m0 rest j [] hm hpcs hl hf hpp
      | cons p0 ps =>
        cases ps with
        | nil =>
          have hps : p0 ∈ (m0 :: rest).filter (fun c => c.linkPrecedence == "primary") := by
            rw [hpcs]
            exact List.mem_singleton.mpr rfl
          have hp0prim : p0.linkPrecedence = "primary" :=
            eq_of_beq (List.mem_filter.mp hps).2
          have hp0s : p0 ∈ s := List.mem_of_mem_filter (hm ▸ (List.mem_filter.mp hps).1)
          have hfind : findById s p0.id = some p0 := findById_of_nodup hwf.1 hp0s
          have heq1 : identifyCore req now1 s = afterPrimary req now1 s [] p0 :=
            identifyCore_onePrimary now1 hm hpcs
          rw [heq1]
          exact second_call_onePrimary req now1 now2 s p0 m0 rest [] hm hpcs hfind hp0prim
        | cons q qs =>
          have hlen : ((m0 :: rest).filter (fun c => c.linkPrecedence == "primary")).length > 1 := by
            rw [hpcs]
            simp only [List.length_cons]
            omega
          have hsne : sortByCreated (p0 :: q :: qs) ≠ [] := by
            intro h
            have hl := (sortByCreated_perm (p0 :: q :: qs)).length_eq
            rw [h] at hl
            simp at hl
          cases hsort' : sortByCreated (p0 :: q :: qs) with
          | nil => exact absurd hsort' hsne
          | cons oldest others =>
            have hsort : sortByCreated ((m0 :: rest).filter
                (fun c => c.linkPrecedence == "primary")) = oldest :: others := by
              rw [hpcs, hsort']
            have heq1 := identifyCore_merge now1 hm hsort hlen
            have hndm : ((m0 :: rest).map (fun c => c.id)).Nodup := by
              have h := nodup_ids_filter (matchesRequest req) hwf.1
              rw [hm] at h
              exact h
            have hndp : ((p0 :: q :: qs).map (fun c => c.id)).Nodup := by
              have h := nodup_ids_filter (fun c => c.linkPrecedence == "primary") hndm
              rw [hpcs] at h
              exact h
            have hperm : (oldest :: others).Perm (p0 :: q :: qs) := by
              have h := sortByCreated_perm (p0 :: q :: qs)
              rw [hsort'] at h
              exact h
            have hnds : ((oldest :: others).map (fun c => c.id)).Nodup :=
              ((hperm.map (fun c => c.id)).nodup_iff).mpr hndp
            have hoin : oldest.id ∉ others.map (fun c => c.id) := by
              simp only [List.map_cons, List.nodup_cons] at hnds
              exact hnds.1
            have hcontold : (others.map (fun c => c.id)).contains oldest.id = false :=
              contains_false_of_not_mem hoin
            have holdmemF : oldest ∈ (m0 :: rest).filter
                (fun c => c.linkPrecedence == "primary") := by
              rw [hpcs]
              exact hperm.mem_iff.mp (List.mem_cons_self _ _)
            have holdmemL : oldest ∈ m0 :: rest := (List.mem_filter.mp holdmemF).1
            have holdprim : oldest.linkPrecedence = "primary" :=
              eq_of_beq (List.mem_filter.mp holdmemF).2
            have holds : oldest ∈ s := List.mem_of_mem_filter (hm ▸ holdmemL)
            have hdold : demoteFn now1 oldest.id (others.map (fun c => c.id)) oldest =
                oldest := demoteFn_of_not_mem now1 oldest.id hcontold
            have hfind1 : findById (s.map (demoteFn now1 oldest.id
                (others.map (fun c => c.id)))) oldest.id = some oldest := by
              rw [findById_map_demote, findById_of_nodup hwf.1 holds]
              simp [hdold]
            have hmem_eq : ∀ c ∈ (m0 :: rest),
                ((demoteFn now1 oldest.id (others.map (fun c => c.id)) c).linkPrecedence ==
                  "primary") = (c.id == oldest.id) := by
              intro c hc
              by_cases hcid : c.id = oldest.id
              · have hceq : c = oldest := eq_of_mem_ids hndm hc holdmemL hcid
                rw [hceq, hdold, holdprim]
                simp
              · cases hcont : (others.map (fun c => c.id)).contains c.id with
                | true =>
                  rw [demoteFn_of_mem now1 oldest.id hcont,
                    beq_eq_false_iff_ne.mpr hcid]
                  rfl
                | false =>
                  rw [demoteFn_of_not_mem now1 oldest.id hcont]
                  cases hb : (c.linkPrecedence == "primary") with
                  | false => rw [beq_eq_false_iff_ne.mpr hcid]
                  | true =>
                    exfalso
                    have hcf : c ∈ (m0 :: rest).filter
                        (fun x => x.linkPrecedence == "primary") :=
                      List.mem_filter.mpr ⟨hc, hb⟩
                    rw [hpcs] at hcf
                    have hco : c ∈ oldest :: others := hperm.mem_iff.mpr hcf
                    rcases List.mem_cons.mp hco with hh | hh
                    · exact hcid (congrArg Contact.id hh)
                    · have hmm : c.id ∈ others.map (fun x => x.id) :=
                        List.mem_map_of_mem _ hh
                      have hct : (others.map (fun c => c.id)).contains c.id = true :=
                        List.elem_iff.mpr hmm
                      rw [hcont] at hct
                      simp at hct
            have hm1 : (s.map (demoteFn now1 oldest.id
                (others.map (fun c => c.id)))).filter (matchesRequest req) =
                demoteFn now1 oldest.id (others.map (fun c => c.id)) m0 ::
                  rest.map (demoteFn now1 oldest.id (others.map (fun c => c.id))) := by
              rw [filter_map_comm (demoteFn now1 oldest.id (others.map (fun c => c.id)))
                  (matchesRequest req) (matchesRequest req) s
                  (fun c _ => matchesRequest_demoteFn req now1 oldest.id
                    (others.map (fun c => c.id)) c), hm]
              rfl
            have hp1 : (demoteFn now1 oldest.id (others.map (fun c => c.id)) m0 ::
                rest.map (demoteFn now1 oldest.id (others.map (fun c => c.id)))).filter
                  (fun c => c.linkPrecedence == "primary") = [oldest] := by
              show ((m0 :: rest).map (demoteFn now1 oldest.id
                  (others.map (fun c => c.id)))).filter
                    (fun c => c.linkPrecedence == "primary") = [oldest]
              rw [filter_map_comm (demoteFn now1 oldest.id (others.map (fun c => c.id)))
                  (fun c => c.linkPrecedence == "primary")
                  (fun c => c.id == oldest.id) (m0 :: rest) hmem_eq,
                filter_id_eq_singleton hndm holdmemL, List.map_cons, List.map_nil, hdold]
            rw [heq1]
            have happ := second_call_onePrimary req now1 now2
              (s.map (demoteFn now1 oldest.id (others.map (fun c => c.id)))) oldest
              (demoteFn now1 oldest.id (others.map (fun c => c.id)) m0)
              (rest.map (demoteFn now1 oldest.id (others.map (fun c => c.id))))
              [s.map (demoteFn now1 oldest.id (others.map (fun c => c.id)))]
              hm1 hp1 hfind1 holdprim
            exact happ

/-- Witness for C3: a well-formed two-record store and a request that
creates a secondary on the first call and is a strict no-op on the
second. -/
theorem claim_C3_witness :
    WF [⟨1, some "a@x", some "111", none, "primary", 0, 0⟩,
        ⟨2, some "b@x", some "111", some 1, "secondary", 1, 1⟩] ∧
    ((identifyCore ⟨some "b@x", some "222"⟩ 9
        (identifyCore ⟨some "b@x", some "222"⟩ 5
          [⟨1, some "a@x", some "111", none, "primary", 0, 0⟩,
           ⟨2, some "b@x", some "111", some 1, "secondary", 1, 1⟩]).store).result =
      (identifyCore ⟨some "b@x", some "222"⟩ 5
        [⟨1, some "a@x", some "111", none, "primary", 0, 0⟩,
         ⟨2, some "b@x", some "111", some 1, "secondary", 1, 1⟩]).result ∧
     (identifyCore ⟨some "b@x", some "222"⟩ 9
        (identifyCore ⟨some "b@x", some "222"⟩ 5
          [⟨1, some "a@x", some "111", none, "primary", 0, 0⟩,
           ⟨2, some "b@x", some "111", some 1, "secondary", 1, 1⟩]).store).store =
      (identifyCore ⟨some "b@x", some "222"⟩ 5
        [⟨1, some "a@x", some "111", none, "primary", 0, 0⟩,
         ⟨2, some "b@x", some "111", some 1, "secondary", 1, 1⟩]).store) :=
  ⟨by decide, claim_C3 ⟨some "b@x", some "222"⟩ 5 9
    [⟨1, some "a@x", some "111", none, "primary", 0, 0⟩,
     ⟨2, some "b@x", some "111", some 1, "secondary", 1, 1⟩] (by decide)⟩

end IdentityRecon

